import Mathlib

/-!
Verification development for the OptimizelyE3Data extraction scripts.

The Python sources are shallowly embedded as executable Lean definitions:

* strings are Lean `String`s; `str.endswith` / `str.startswith` become
  decidable suffix / prefix tests on the underlying character lists;
* the local filesystem is a pair of association structures: a list of
  `(path, byte-size)` entries for regular files and a list of created
  directories (destination paths are modelled as regular files, which is the
  case in every run of these scripts);
* successful and failed downloads are decided by an oracle
  `String → Bool` abstracting the network; a successful download of an
  object writes a file of the object's listed size;
* Python exceptions become `Except` values; configuration errors are the
  constructors of `CfgError`.
-/

/-- Boolean model of Python `s.endswith(suffix)`: the characters of `suffix`
are a suffix of the characters of `s`. -/
def strEndsWith (s suffix : String) : Bool :=
  decide (suffix.data <:+ s.data)

/-- Boolean model of Python `s.startswith(pre)`: the characters of `pre` are a
prefix of the characters of `s`. -/
def strStartsWith (s pre : String) : Bool :=
  decide (pre.data <+: s.data)

/-- Model of Python `s.split(sep)` for a single-character separator, on
character lists: splitting on every occurrence, keeping empty segments. -/
def splitOnChar (sep : Char) : List Char → List (List Char)
  | [] => [[]]
  | x :: xs =>
    match splitOnChar sep xs with
    | [] => [[]]
    | g :: gs => if x = sep then [] :: g :: gs else (x :: g) :: gs

/-- Model of one step of `posixpath.join`: how `os.path.join` absorbs a single
further component `b` into the accumulated path. -/
def osJoin (path b : String) : String :=
  if strStartsWith b "/" then b
  else if path = "" ∨ strEndsWith path "/" then path ++ b
  else path ++ "/" ++ b

/-- Model of `posixpath.dirname`: everything before the final slash, with
trailing slashes stripped unless the head consists only of slashes. -/
def dirname (p : String) : String :=
  let head := ((p.data.reverse.dropWhile (fun c => c ≠ '/')).reverse)
  if head.isEmpty then ""
  else if head.all (fun c => c = '/') then ⟨head⟩
  else ⟨(head.reverse.dropWhile (fun c => c = '/')).reverse⟩

/-- Path computed by `ensure_local_path`:
`os.path.join(root_dir, *key.split("/"))`. -/
def local_path (root_dir key : String) : String :=
  ((splitOnChar '/' key.data).map (fun cs => (⟨cs⟩ : String))).foldl osJoin root_dir

/-- Remote object as produced by the S3 listing: `obj["Key"]` and
`obj.get("Size", 0)`. -/
structure RemoteObject where
  key : String
  size : Nat
deriving DecidableEq

/-- Local filesystem state: regular files with their byte sizes, plus the set
of directories created so far by `os.makedirs`. -/
structure FS where
  files : List (String × Nat)
  dirs : List String
deriving DecidableEq

/-- Size lookup in the file table; the most recent write wins. -/
def lookupSize : List (String × Nat) → String → Option Nat
  | [], _ => none
  | (q, n) :: rest, p => if q = p then some n else lookupSize rest p

/-- Model of `os.path.exists(p) and os.path.getsize(p) == size` restricted to
regular files: the recorded size of the file at `p`, if any. -/
def FS.size? (fs : FS) (p : String) : Option Nat :=
  lookupSize fs.files p

/-- Model of a completed download writing a file of `n` bytes at `p`. -/
def FS.write (fs : FS) (p : String) (n : Nat) : FS :=
  { fs with files := (p, n) :: fs.files }

/-- Model of `os.makedirs(d, exist_ok=True)`: record the deepest directory of
the destination (its whole ancestor chain is determined by it). -/
def FS.mkdirs (fs : FS) (d : String) : FS :=
  if d ∈ fs.dirs then fs else { fs with dirs := d :: fs.dirs }

/-- Model of `ensure_local_path`: create the parent directory tree of the
mapped destination and return the destination path. -/
def ensure_local_path (fs : FS) (root_dir key : String) : FS × String :=
  let lp := local_path root_dir key
  (fs.mkdirs (dirname lp), lp)

/-- State threaded through the transfer loop: the filesystem and the three
counters `ok` (downloaded), `skipped`, `failed`. -/
structure DLState where
  fs : FS
  ok : Nat
  skipped : Nat
  failed : Nat
deriving DecidableEq

/-- Body of the transfer loop for one object that passed the eligibility
guard, following `download_objects` in `load_optimizely_decisions.py`
(lines 190-204; identical in the other two variants): map the key to a local
path creating parent directories, skip when an existing file matches the
remote size, count a dry run as downloaded, otherwise download with the
outcome given by the oracle. -/
def transferStep (oracle : String → Bool) (out_dir : String) (dry_run : Bool)
    (st : DLState) (obj : RemoteObject) : DLState :=
  let fslp := ensure_local_path st.fs out_dir obj.key
  if fslp.1.size? fslp.2 = some obj.size then
    { st with fs := fslp.1, skipped := st.skipped + 1 }
  else if dry_run then
    { st with fs := fslp.1, ok := st.ok + 1 }
  else if oracle obj.key then
    { st with fs := (fslp.1.write fslp.2 obj.size), ok := st.ok + 1 }
  else
    { st with fs := fslp.1, failed := st.failed + 1 }

/-- Transfer loop over a list of objects, parameterised by the guard `skip`
under which a variant `continue`s without touching any counter. -/
def transfer_go (skip : RemoteObject → Bool) (oracle : String → Bool)
    (out_dir : String) (dry_run : Bool) (st : DLState)
    (objs : List RemoteObject) : DLState :=
  objs.foldl
    (fun st obj => if skip obj then st else transferStep oracle out_dir dry_run st obj) st

/-- Transfer Executor of `load_optimizely_decisions.py` (download_objects,
lines 182-205): objects whose key ends in a path separator are skipped
without counting. -/
def download_objects (oracle : String → Bool) (objs : List RemoteObject)
    (out_dir : String) (dry_run : Bool) (fs0 : FS) : DLState :=
  transfer_go (fun obj => strEndsWith obj.key "/") oracle out_dir dry_run
    ⟨fs0, 0, 0, 0⟩ objs

/-- Transfer Executor of `extract_optimizely_s3.py` (download_objects, lines
138-167): this variant has no directory-marker guard, every object in the
list reaches the counting branches. -/
def download_objects_extract (oracle : String → Bool) (objs : List RemoteObject)
    (out_dir : String) (dry_run : Bool) (fs0 : FS) : DLState :=
  transfer_go (fun _ => false) oracle out_dir dry_run ⟨fs0, 0, 0, 0⟩ objs

/-- Inline transfer loop of `load_optimizely_decisions_v2.py` (main, lines
385-405): `if key.endswith("/") or not key: continue` — directory markers
and empty keys are skipped without counting. -/
def transfer_loop_v2 (oracle : String → Bool) (objs : List RemoteObject)
    (out_dir : String) (dry_run : Bool) (fs0 : FS) : DLState :=
  transfer_go (fun obj => strEndsWith obj.key "/" || decide (obj.key = ""))
    oracle out_dir dry_run ⟨fs0, 0, 0, 0⟩ objs

lemma transferStep_counts (oracle : String → Bool) (out_dir : String)
    (dry_run : Bool) (st : DLState) (obj : RemoteObject) :
    (transferStep oracle out_dir dry_run st obj).ok +
      (transferStep oracle out_dir dry_run st obj).skipped +
      (transferStep oracle out_dir dry_run st obj).failed =
    st.ok + st.skipped + st.failed + 1 := by
  unfold transferStep
  dsimp only
  split
  · simp; omega
  · split
    · simp; omega
    · split <;> simp <;> omega

lemma transfer_go_counts (skip : RemoteObject → Bool) (oracle : String → Bool)
    (out_dir : String) (dry_run : Bool) :
    ∀ (objs : List RemoteObject) (st : DLState),
      (transfer_go skip oracle out_dir dry_run st objs).ok +
        (transfer_go skip oracle out_dir dry_run st objs).skipped +
        (transfer_go skip oracle out_dir dry_run st objs).failed =
      st.ok + st.skipped + st.failed + objs.countP (fun o => !skip o)
  | [], st => by simp [transfer_go]
  | obj :: rest, st => by
    rw [transfer_go, List.foldl_cons, List.countP_cons]
    by_cases h : skip obj = true
    · rw [if_pos h]
      have ih := transfer_go_counts skip oracle out_dir dry_run rest st
      rw [transfer_go] at ih
      simpa [h] using ih
    · have hb : skip obj = false := by simpa using h
      rw [if_neg (by simp [hb])]
      have ih := transfer_go_counts skip oracle out_dir dry_run rest
        (transferStep oracle out_dir dry_run st obj)
      rw [transfer_go] at ih
      rw [ih, transferStep_counts]
      simp [hb]
      omega

/-- C1 (counterexample). The claim states that for every list passed to the
Transfer Executor, `downloaded + skipped + failed` equals the number of
objects whose key does not end in a path separator, directory markers
counting toward none of the three counters. This fails on the code: the
`extract_optimizely_s3.py` variant has no directory-marker guard, so the
marker object `"a/"` is counted (sum 1, eligible objects 0); and the v2
inline loop also skips objects with an empty key, which the claim counts as
eligible (sum 0, eligible objects 1). -/
theorem c1_counterexample :
    ((download_objects_extract (fun _ => true) [⟨"a/", 0⟩] "out" true ⟨[], []⟩).ok +
      (download_objects_extract (fun _ => true) [⟨"a/", 0⟩] "out" true ⟨[], []⟩).skipped +
      (download_objects_extract (fun _ => true) [⟨"a/", 0⟩] "out" true ⟨[], []⟩).failed = 1 ∧
      (([⟨"a/", 0⟩] : List RemoteObject).filter
        (fun o => !strEndsWith o.key "/")).length = 0) ∧
    ((transfer_loop_v2 (fun _ => true) [⟨"", 0⟩] "out" true ⟨[], []⟩).ok +
      (transfer_loop_v2 (fun _ => true) [⟨"", 0⟩] "out" true ⟨[], []⟩).skipped +
      (transfer_loop_v2 (fun _ => true) [⟨"", 0⟩] "out" true ⟨[], []⟩).failed = 0 ∧
      (([⟨"", 0⟩] : List RemoteObject).filter
        (fun o => !strEndsWith o.key "/")).length = 1) := by
  constructor
  · constructor
    · decide
    · decide
  · constructor
    · decide
    · decide

/-- C1 (amended). For every object list, filesystem state, output directory,
dry-run flag and download oracle: in `load_optimizely_decisions.py` the
counters sum to the number of objects whose key does not end in a path
separator; in the v2 inline loop they sum to the number of objects whose key
is nonempty and does not end in a path separator; in
`extract_optimizely_s3.py`, which has no directory-marker guard, they sum to
the total number of objects passed. -/
theorem c1_amended (oracle : String → Bool) (objs : List RemoteObject)
    (out_dir : String) (dry_run : Bool) (fs0 : FS) :
    ((download_objects oracle objs out_dir dry_run fs0).ok +
      (download_objects oracle objs out_dir dry_run fs0).skipped +
      (download_objects oracle objs out_dir dry_run fs0).failed =
      (objs.filter (fun o => !strEndsWith o.key "/")).length) ∧
    ((transfer_loop_v2 oracle objs out_dir dry_run fs0).ok +
      (transfer_loop_v2 oracle objs out_dir dry_run fs0).skipped +
      (transfer_loop_v2 oracle objs out_dir dry_run fs0).failed =
      (objs.filter
        (fun o => !(strEndsWith o.key "/" || decide (o.key = "")))).length) ∧
    ((download_objects_extract oracle objs out_dir dry_run fs0).ok +
      (download_objects_extract oracle objs out_dir dry_run fs0).skipped +
      (download_objects_extract oracle objs out_dir dry_run fs0).failed =
      objs.length) := by
  refine ⟨?_, ?_, ?_⟩
  · rw [download_objects, transfer_go_counts, ← List.countP_eq_length_filter]
    simp
  · rw [transfer_loop_v2, transfer_go_counts, ← List.countP_eq_length_filter]
    simp
  · rw [download_objects_extract, transfer_go_counts]
    simp [List.countP_eq_length_filter]

lemma mkdirs_files (fs : FS) (d : String) : (fs.mkdirs d).files = fs.files := by
  unfold FS.mkdirs
  split <;> rfl

lemma size?_mkdirs (fs : FS) (d p : String) : (fs.mkdirs d).size? p = fs.size? p := by
  simp [FS.size?, mkdirs_files]

lemma size?_write_self (fs : FS) (p : String) (n : Nat) :
    (fs.write p n).size? p = some n := by
  simp [FS.size?, FS.write, lookupSize]

lemma size?_write_other (fs : FS) (p q : String) (n : Nat) (h : p ≠ q) :
    (fs.write p n).size? q = fs.size? q := by
  simp [FS.size?, FS.write, lookupSize, h]

lemma transferStep_skip_eq (oracle : String → Bool) (out_dir : String)
    (dry_run : Bool) (st : DLState) (obj : RemoteObject)
    (h : st.fs.size? (local_path out_dir obj.key) = some obj.size) :
    transferStep oracle out_dir dry_run st obj =
      { st with fs := st.fs.mkdirs (dirname (local_path out_dir obj.key)),
                skipped := st.skipped + 1 } := by
  simp only [transferStep, ensure_local_path, size?_mkdirs]
  rw [if_pos h]

lemma transferStep_dry_eq (oracle : String → Bool) (out_dir : String)
    (st : DLState) (obj : RemoteObject)
    (h : st.fs.size? (local_path out_dir obj.key) ≠ some obj.size) :
    transferStep oracle out_dir true st obj =
      { st with fs := st.fs.mkdirs (dirname (local_path out_dir obj.key)),
                ok := st.ok + 1 } := by
  simp only [transferStep, ensure_local_path, size?_mkdirs]
  rw [if_neg h]
  simp

lemma transferStep_dl_eq (oracle : String → Bool) (out_dir : String)
    (st : DLState) (obj : RemoteObject)
    (h : st.fs.size? (local_path out_dir obj.key) ≠ some obj.size)
    (ho : oracle obj.key = true) :
    transferStep oracle out_dir false st obj =
      { st with fs := (st.fs.mkdirs (dirname (local_path out_dir obj.key))).write
                  (local_path out_dir obj.key) obj.size,
                ok := st.ok + 1 } := by
  simp only [transferStep, ensure_local_path, size?_mkdirs]
  rw [if_neg h]
  simp [ho]

lemma transferStep_fail_eq (oracle : String → Bool) (out_dir : String)
    (st : DLState) (obj : RemoteObject)
    (h : st.fs.size? (local_path out_dir obj.key) ≠ some obj.size)
    (ho : oracle obj.key = false) :
    transferStep oracle out_dir false st obj =
      { st with fs := st.fs.mkdirs (dirname (local_path out_dir obj.key)),
                failed := st.failed + 1 } := by
  simp only [transferStep, ensure_local_path, size?_mkdirs]
  rw [if_neg h]
  simp [ho]

lemma transferStep_failed_le (oracle : String → Bool) (out_dir : String)
    (dry_run : Bool) (st : DLState) (obj : RemoteObject) :
    st.failed ≤ (transferStep oracle out_dir dry_run st obj).failed := by
  unfold transferStep
  dsimp only
  split
  · exact Nat.le_refl _
  · split
    · exact Nat.le_refl _
    · split
      · exact Nat.le_refl _
      · exact Nat.le_succ _

lemma transfer_go_failed_le (skip : RemoteObject → Bool) (oracle : String → Bool)
    (out_dir : String) (dry_run : Bool) :
    ∀ (objs : List RemoteObject) (st : DLState),
      st.failed ≤ (transfer_go skip oracle out_dir dry_run st objs).failed
  | [], st => Nat.le_refl _
  | obj :: rest, st => by
    rw [transfer_go, List.foldl_cons]
    by_cases h : skip obj = true
    · rw [if_pos h]
      exact transfer_go_failed_le skip oracle out_dir dry_run rest st
    · rw [if_neg h]
      exact Nat.le_trans (transferStep_failed_le oracle out_dir dry_run st obj)
        (transfer_go_failed_le skip oracle out_dir dry_run rest _)

lemma transferStep_preserves_size (oracle : String → Bool) (out_dir : String)
    (dry_run : Bool) (st : DLState) (obj : RemoteObject) (p : String) (s : Nat)
    (hp : st.fs.size? p = some s)
    (hobj : local_path out_dir obj.key = p → obj.size = s) :
    (transferStep oracle out_dir dry_run st obj).fs.size? p = some s := by
  by_cases hm : st.fs.size? (local_path out_dir obj.key) = some obj.size
  · rw [transferStep_skip_eq oracle out_dir dry_run st obj hm]
    simpa [size?_mkdirs] using hp
  · cases dry_run with
    | true =>
      rw [transferStep_dry_eq oracle out_dir st obj hm]
      simpa [size?_mkdirs] using hp
    | false =>
      cases ho : oracle obj.key with
      | true =>
        rw [transferStep_dl_eq oracle out_dir st obj hm ho]
        by_cases hpq : local_path out_dir obj.key = p
        · rw [hpq, size?_write_self]
          exact congrArg some (hobj hpq).symm ▸ rfl
        · rw [size?_write_other _ _ _ _ hpq]
          simpa [size?_mkdirs] using hp
      | false =>
        rw [transferStep_fail_eq oracle out_dir st obj hm ho]
        simpa [size?_mkdirs] using hp

lemma transfer_go_preserves_size (skip : RemoteObject → Bool)
    (oracle : String → Bool) (out_dir : String) (dry_run : Bool) :
    ∀ (objs : List RemoteObject) (st : DLState) (p : String) (s : Nat),
      st.fs.size? p = some s →
      (∀ o ∈ objs, skip o = false → local_path out_dir o.key = p → o.size = s) →
      (transfer_go skip oracle out_dir dry_run st objs).fs.size? p = some s
  | [], st, p, s, hp, _ => hp
  | obj :: rest, st, p, s, hp, hobjs => by
    rw [transfer_go, List.foldl_cons]
    by_cases h : skip obj = true
    · rw [if_pos h]
      exact transfer_go_preserves_size skip oracle out_dir dry_run rest st p s hp
        (fun o ho => hobjs o (List.mem_cons_of_mem _ ho))
    · rw [if_neg h]
      have hb : skip obj = false := by simpa using h
      exact transfer_go_preserves_size skip oracle out_dir dry_run rest _ p s
        (transferStep_preserves_size oracle out_dir dry_run st obj p s hp
          (hobjs obj (List.mem_cons_self _ _) hb))
        (fun o ho => hobjs o (List.mem_cons_of_mem _ ho))

lemma transferStep_establishes (oracle : String → Bool) (out_dir : String)
    (st : DLState) (obj : RemoteObject)
    (hf : (transferStep oracle out_dir false st obj).failed = st.failed) :
    (transferStep oracle out_dir false st obj).fs.size?
      (local_path out_dir obj.key) = some obj.size := by
  by_cases hm : st.fs.size? (local_path out_dir obj.key) = some obj.size
  · rw [transferStep_skip_eq oracle out_dir false st obj hm]
    simpa [size?_mkdirs] using hm
  · cases ho : oracle obj.key with
    | true =>
      rw [transferStep_dl_eq oracle out_dir st obj hm ho]
      exact size?_write_self _ _ _
    | false =>
      rw [transferStep_fail_eq oracle out_dir st obj hm ho] at hf
      simp at hf

lemma transfer_go_establishes (skip : RemoteObject → Bool)
    (oracle : String → Bool) (out_dir : String) :
    ∀ (objs : List RemoteObject) (st : DLState),
      (∀ o1 ∈ objs, ∀ o2 ∈ objs, skip o1 = false → skip o2 = false →
        local_path out_dir o1.key = local_path out_dir o2.key →
        o1.size = o2.size) →
      (transfer_go skip oracle out_dir false st objs).failed = st.failed →
      ∀ o ∈ objs, skip o = false →
        (transfer_go skip oracle out_dir false st objs).fs.size?
          (local_path out_dir o.key) = some o.size
  | [], _, _, _, o, ho, _ => absurd ho (List.not_mem_nil o)
  | obj :: rest, st, hcoll, hfail, o, ho, hso => by
    rw [transfer_go, List.foldl_cons] at hfail ⊢
    by_cases h : skip obj = true
    · rw [if_pos h] at hfail ⊢
      rcases List.mem_cons.mp ho with rfl | hmem
      · rw [h] at hso
        exact absurd hso (by simp)
      · exact transfer_go_establishes skip oracle out_dir rest st
          (fun o1 h1 o2 h2 => hcoll o1 (List.mem_cons_of_mem _ h1)
            o2 (List.mem_cons_of_mem _ h2)) hfail o hmem hso
    · rw [if_neg h] at hfail ⊢
      have hb : skip obj = false := by simpa using h
      have hstep : (transferStep oracle out_dir false st obj).failed = st.failed := by
        have h1 := transferStep_failed_le oracle out_dir false st obj
        have h2 := transfer_go_failed_le skip oracle out_dir false rest
          (transferStep oracle out_dir false st obj)
        rw [transfer_go] at h2
        omega
      have hfail2 : (List.foldl
          (fun st obj => if skip obj = true then st
            else transferStep oracle out_dir false st obj)
          (transferStep oracle out_dir false st obj) rest).failed =
          (transferStep oracle out_dir false st obj).failed := by
        rw [hstep]
        exact hfail
      rcases List.mem_cons.mp ho with rfl | hmem
      · have hest := transferStep_establishes oracle out_dir st o hstep
        have hpres := transfer_go_preserves_size skip oracle out_dir false rest
          (transferStep oracle out_dir false st o)
          (local_path out_dir o.key) o.size hest
          (fun o2 h2 hs2 heq => hcoll o2 (List.mem_cons_of_mem _ h2)
            o (List.mem_cons_self _ _) hs2 hso heq)
        rw [transfer_go] at hpres
        exact hpres
      · have hrec := transfer_go_establishes skip oracle out_dir rest
          (transferStep oracle out_dir false st obj)
          (fun o1 h1 o2 h2 => hcoll o1 (List.mem_cons_of_mem _ h1)
            o2 (List.mem_cons_of_mem _ h2)) hfail2 o hmem hso
        rw [transfer_go] at hrec
        exact hrec

lemma transfer_go_all_skip (skip : RemoteObject → Bool) (oracle : String → Bool)
    (out_dir : String) (dry_run : Bool) :
    ∀ (objs : List RemoteObject) (st : DLState),
      (∀ o ∈ objs, skip o = false →
        st.fs.size? (local_path out_dir o.key) = some o.size) →
      (transfer_go skip oracle out_dir dry_run st objs).skipped =
          st.skipped + objs.countP (fun o => !skip o) ∧
        (transfer_go skip oracle out_dir dry_run st objs).ok = st.ok ∧
        (transfer_go skip oracle out_dir dry_run st objs).failed = st.failed ∧
        (transfer_go skip oracle out_dir dry_run st objs).fs.files = st.fs.files
  | [], st, _ => by simp [transfer_go]
  | obj :: rest, st, h => by
    rw [transfer_go, List.foldl_cons, List.countP_cons]
    by_cases hs : skip obj = true
    · rw [if_pos hs]
      have ih := transfer_go_all_skip skip oracle out_dir dry_run rest st
        (fun o ho => h o (List.mem_cons_of_mem _ ho))
      rw [transfer_go] at ih
      simpa [hs] using ih
    · rw [if_neg hs]
      have hb : skip obj = false := by simpa using hs
      have hm := h obj (List.mem_cons_self _ _) hb
      rw [transferStep_skip_eq oracle out_dir dry_run st obj hm]
      have ih := transfer_go_all_skip skip oracle out_dir dry_run rest
        { st with fs := st.fs.mkdirs (dirname (local_path out_dir obj.key)),
                  skipped := st.skipped + 1 }
        (fun o ho hso => by
          rw [show ({ st with
              fs := st.fs.mkdirs (dirname (local_path out_dir obj.key)),
              skipped := st.skipped + 1 } : DLState).fs.size? (local_path out_dir o.key) =
              st.fs.size? (local_path out_dir o.key) from size?_mkdirs _ _ _]
          exact h o (List.mem_cons_of_mem _ ho) hso)
      rw [transfer_go] at ih
      rcases ih with ⟨i1, i2, i3, i4⟩
      refine ⟨?_, by simpa using i2, by simpa using i3, by simpa [mkdirs_files] using i4⟩
      rw [i1]
      simp [hb]
      omega

/-- C2 (counterexample). The claim quantifies over every object list; it
fails when two distinct eligible keys collide on the same local destination
path with different sizes. Keys `"a//b"` (size 1) and `"a/b"` (size 2) both
map to `out/a/b`; a first live run downloads both and ends with
`failed = 0`, yet a second run against the same destination re-downloads
both objects (`downloaded = 2`, `skipped = 0`), not the claimed
all-skipped outcome. -/
theorem c2_counterexample :
    (download_objects (fun _ => true) [⟨"a//b", 1⟩, ⟨"a/b", 2⟩] "out" false
        ⟨[], []⟩).failed = 0 ∧
    (download_objects (fun _ => true) [⟨"a//b", 1⟩, ⟨"a/b", 2⟩] "out" false
        (download_objects (fun _ => true) [⟨"a//b", 1⟩, ⟨"a/b", 2⟩] "out" false
          ⟨[], []⟩).fs).ok = 2 ∧
    (download_objects (fun _ => true) [⟨"a//b", 1⟩, ⟨"a/b", 2⟩] "out" false
        (download_objects (fun _ => true) [⟨"a//b", 1⟩, ⟨"a/b", 2⟩] "out" false
          ⟨[], []⟩).fs).skipped = 0 ∧
    (([⟨"a//b", 1⟩, ⟨"a/b", 2⟩] : List RemoteObject).filter
      (fun o => !strEndsWith o.key "/")).length = 2 := by
  refine ⟨by decide, by decide, by decide, by decide⟩

/-- C2 (amended). If any two objects that pass the directory-marker guard
and map to the same local destination path report the same size (in
particular whenever the key-to-path mapping is injective on the list, as for
any genuine S3 listing without empty path segments), then after a first live
run of `download_objects` that completes with `failed = 0`, a second live
run against the same destination classifies every eligible object as
`skipped` and reports `downloaded = 0` and `failed = 0`, leaving the file
table unchanged. -/
theorem c2_amended (oracle1 oracle2 : String → Bool)
    (objs : List RemoteObject) (out_dir : String) (fs0 : FS)
    (hcoll : ∀ o1 ∈ objs, ∀ o2 ∈ objs,
      strEndsWith o1.key "/" = false → strEndsWith o2.key "/" = false →
      local_path out_dir o1.key = local_path out_dir o2.key →
      o1.size = o2.size)
    (hfail : (download_objects oracle1 objs out_dir false fs0).failed = 0) :
    (download_objects oracle2 objs out_dir false
        (download_objects oracle1 objs out_dir false fs0).fs).skipped =
      (objs.filter (fun o => !strEndsWith o.key "/")).length ∧
    (download_objects oracle2 objs out_dir false
        (download_objects oracle1 objs out_dir false fs0).fs).ok = 0 ∧
    (download_objects oracle2 objs out_dir false
        (download_objects oracle1 objs out_dir false fs0).fs).failed = 0 ∧
    (download_objects oracle2 objs out_dir false
        (download_objects oracle1 objs out_dir false fs0).fs).fs.files =
      (download_objects oracle1 objs out_dir false fs0).fs.files := by
  have hest := transfer_go_establishes (fun obj => strEndsWith obj.key "/")
    oracle1 out_dir objs ⟨fs0, 0, 0, 0⟩ hcoll (by rw [download_objects] at hfail; exact hfail)
  have hall := transfer_go_all_skip (fun obj => strEndsWith obj.key "/")
    oracle2 out_dir false objs
    ⟨(download_objects oracle1 objs out_dir false fs0).fs, 0, 0, 0⟩
    (fun o ho hso => by
      have := hest o ho hso
      rw [← download_objects] at this
      exact this)
  rw [← download_objects] at hall
  rcases hall with ⟨h1, h2, h3, h4⟩
  refine ⟨?_, h2, h3, h4⟩
  rw [h1, ← List.countP_eq_length_filter]
  simp

/-- Witness for C2 (amended): a concrete one-object run discharging both
hypotheses, with the second run consulting an oracle that would fail every
download — showing the skip rule never reaches the network. -/
theorem c2_amended_witness :
    (download_objects (fun _ => false) [⟨"d/x.parquet", 3⟩] "out" false
        (download_objects (fun _ => true) [⟨"d/x.parquet", 3⟩] "out" false
          ⟨[], []⟩).fs).skipped =
      (([⟨"d/x.parquet", 3⟩] : List RemoteObject).filter
        (fun o => !strEndsWith o.key "/")).length ∧
    (download_objects (fun _ => false) [⟨"d/x.parquet", 3⟩] "out" false
        (download_objects (fun _ => true) [⟨"d/x.parquet", 3⟩] "out" false
          ⟨[], []⟩).fs).ok = 0 ∧
    (download_objects (fun _ => false) [⟨"d/x.parquet", 3⟩] "out" false
        (download_objects (fun _ => true) [⟨"d/x.parquet", 3⟩] "out" false
          ⟨[], []⟩).fs).failed = 0 ∧
    (download_objects (fun _ => false) [⟨"d/x.parquet", 3⟩] "out" false
        (download_objects (fun _ => true) [⟨"d/x.parquet", 3⟩] "out" false
          ⟨[], []⟩).fs).fs.files =
      (download_objects (fun _ => true) [⟨"d/x.parquet", 3⟩] "out" false
        ⟨[], []⟩).fs.files :=
  c2_amended (fun _ => true) (fun _ => false) [⟨"d/x.parquet", 3⟩] "out"
    ⟨[], []⟩ (by decide) (by decide)

lemma mkdirs_mem (fs : FS) (d : String) : d ∈ (fs.mkdirs d).dirs := by
  unfold FS.mkdirs
  split
  · assumption
  · exact List.mem_cons_self _ _

lemma mkdirs_dirs_mono (fs : FS) (d x : String) (h : x ∈ fs.dirs) :
    x ∈ (fs.mkdirs d).dirs := by
  unfold FS.mkdirs
  split
  · exact h
  · exact List.mem_cons_of_mem _ h

lemma write_dirs (fs : FS) (p : String) (n : Nat) : (fs.write p n).dirs = fs.dirs := rfl

lemma transferStep_dirs_mono (oracle : String → Bool) (out_dir : String)
    (dry_run : Bool) (st : DLState) (obj : RemoteObject) (x : String)
    (h : x ∈ st.fs.dirs) :
    x ∈ (transferStep oracle out_dir dry_run st obj).fs.dirs := by
  unfold transferStep
  dsimp only
  split
  · exact mkdirs_dirs_mono _ _ _ h
  · split
    · exact mkdirs_dirs_mono _ _ _ h
    · split
      · rw [ensure_local_path]
        dsimp only
        rw [write_dirs]
        exact mkdirs_dirs_mono _ _ _ h
      · exact mkdirs_dirs_mono _ _ _ h

lemma transferStep_creates_dir (oracle : String → Bool) (out_dir : String)
    (dry_run : Bool) (st : DLState) (obj : RemoteObject) :
    dirname (local_path out_dir obj.key) ∈
      (transferStep oracle out_dir dry_run st obj).fs.dirs := by
  unfold transferStep
  dsimp only
  split
  · exact mkdirs_mem _ _
  · split
    · exact mkdirs_mem _ _
    · split
      · rw [ensure_local_path]
        dsimp only
        rw [write_dirs]
        exact mkdirs_mem _ _
      · exact mkdirs_mem _ _

lemma transfer_go_dirs_mono (skip : RemoteObject → Bool) (oracle : String → Bool)
    (out_dir : String) (dry_run : Bool) :
    ∀ (objs : List RemoteObject) (st : DLState) (x : String),
      x ∈ st.fs.dirs →
      x ∈ (transfer_go skip oracle out_dir dry_run st objs).fs.dirs
  | [], _, _, h => h
  | obj :: rest, st, x, h => by
    rw [transfer_go, List.foldl_cons]
    by_cases hs : skip obj = true
    · rw [if_pos hs]
      exact transfer_go_dirs_mono skip oracle out_dir dry_run rest st x h
    · rw [if_neg hs]
      exact transfer_go_dirs_mono skip oracle out_dir dry_run rest _ x
        (transferStep_dirs_mono oracle out_dir dry_run st obj x h)

lemma transfer_go_creates_dirs (skip : RemoteObject → Bool)
    (oracle : String → Bool) (out_dir : String) (dry_run : Bool) :
    ∀ (objs : List RemoteObject) (st : DLState),
      ∀ o ∈ objs, skip o = false →
        dirname (local_path out_dir o.key) ∈
          (transfer_go skip oracle out_dir dry_run st objs).fs.dirs
  | [], _, o, ho, _ => absurd ho (List.not_mem_nil o)
  | obj :: rest, st, o, ho, hso => by
    rw [transfer_go, List.foldl_cons]
    by_cases hs : skip obj = true
    · rw [if_pos hs]
      rcases List.mem_cons.mp ho with rfl | hmem
      · rw [hs] at hso
        exact absurd hso (by simp)
      · exact transfer_go_creates_dirs skip oracle out_dir dry_run rest st o hmem hso
    · rw [if_neg hs]
      rcases List.mem_cons.mp ho with rfl | hmem
      · exact transfer_go_dirs_mono skip oracle out_dir dry_run rest _ _
          (transferStep_creates_dir oracle out_dir dry_run st o)
      · exact transfer_go_creates_dirs skip oracle out_dir dry_run rest _ o hmem hso

lemma transferStep_dry_files (oracle : String → Bool) (out_dir : String)
    (st : DLState) (obj : RemoteObject) :
    (transferStep oracle out_dir true st obj).fs.files = st.fs.files := by
  by_cases hm : st.fs.size? (local_path out_dir obj.key) = some obj.size
  · rw [transferStep_skip_eq oracle out_dir true st obj hm]
    exact mkdirs_files _ _
  · rw [transferStep_dry_eq oracle out_dir st obj hm]
    exact mkdirs_files _ _

lemma transfer_go_dry_files (skip : RemoteObject → Bool) (oracle : String → Bool)
    (out_dir : String) :
    ∀ (objs : List RemoteObject) (st : DLState),
      (transfer_go skip oracle out_dir true st objs).fs.files = st.fs.files
  | [], _ => rfl
  | obj :: rest, st => by
    rw [transfer_go, List.foldl_cons]
    by_cases hs : skip obj = true
    · rw [if_pos hs]
      exact transfer_go_dry_files skip oracle out_dir rest st
    · rw [if_neg hs]
      have ih := transfer_go_dry_files skip oracle out_dir rest
        (transferStep oracle out_dir true st obj)
      rw [transfer_go] at ih
      rw [ih]
      exact transferStep_dry_files oracle out_dir st obj

/-- C8 (counterexample). The claim asserts that in dry-run mode every
eligible (non-directory-marker) object gets the parent directory tree of its
mapped destination created. In the v2 inline loop an object whose key is
empty does not end in a path separator — so it is eligible in the claim's
sense — yet the loop `continue`s before `ensure_local_path`, and no
directory is created. -/
theorem c8_counterexample :
    strEndsWith "" "/" = false ∧
    (transfer_loop_v2 (fun _ => true) [⟨"", 0⟩] "out" true ⟨[], []⟩).fs.dirs = [] ∧
    dirname (local_path "out" "") ∉
      (transfer_loop_v2 (fun _ => true) [⟨"", 0⟩] "out" true ⟨[], []⟩).fs.dirs := by
  refine ⟨by decide, by decide, by decide⟩

/-- C8 (amended). In dry-run mode the Transfer Executor still mutates the
local filesystem: for every object that passes the variant's guard (key not
ending in a path separator; in the v2 loop additionally nonempty), the
parent directory of the mapped destination path is created, while the file
table is left untouched — no file content is ever written in a dry run. -/
theorem c8_amended (oracle : String → Bool) (objs : List RemoteObject)
    (out_dir : String) (fs0 : FS) :
    ((∀ o ∈ objs, strEndsWith o.key "/" = false →
        dirname (local_path out_dir o.key) ∈
          (download_objects oracle objs out_dir true fs0).fs.dirs) ∧
      (download_objects oracle objs out_dir true fs0).fs.files = fs0.files) ∧
    ((∀ o ∈ objs, strEndsWith o.key "/" = false → o.key ≠ "" →
        dirname (local_path out_dir o.key) ∈
          (transfer_loop_v2 oracle objs out_dir true fs0).fs.dirs) ∧
      (transfer_loop_v2 oracle objs out_dir true fs0).fs.files = fs0.files) ∧
    ((∀ o ∈ objs, strEndsWith o.key "/" = false →
        dirname (local_path out_dir o.key) ∈
          (download_objects_extract oracle objs out_dir true fs0).fs.dirs) ∧
      (download_objects_extract oracle objs out_dir true fs0).fs.files = fs0.files) := by
  refine ⟨⟨?_, ?_⟩, ⟨?_, ?_⟩, ⟨?_, ?_⟩⟩
  · intro o ho hso
    exact transfer_go_creates_dirs _ oracle out_dir true objs ⟨fs0, 0, 0, 0⟩ o ho hso
  · exact transfer_go_dry_files _ oracle out_dir objs ⟨fs0, 0, 0, 0⟩
  · intro o ho hso hne
    exact transfer_go_creates_dirs _ oracle out_dir true objs ⟨fs0, 0, 0, 0⟩ o ho
      (by simp [hso, hne])
  · exact transfer_go_dry_files _ oracle out_dir objs ⟨fs0, 0, 0, 0⟩
  · intro o ho hso
    exact transfer_go_creates_dirs _ oracle out_dir true objs ⟨fs0, 0, 0, 0⟩ o ho rfl
  · exact transfer_go_dry_files _ oracle out_dir objs ⟨fs0, 0, 0, 0⟩

/-- Witness for C8 (amended): concrete dry run creating `out/date=d` for the
one eligible object while writing no file. -/
theorem c8_amended_witness :
    strEndsWith "date=d/part-0.parquet" "/" = false ∧
    dirname (local_path "out" "date=d/part-0.parquet") ∈
      (download_objects (fun _ => true) [⟨"date=d/part-0.parquet", 7⟩] "out"
        true ⟨[], []⟩).fs.dirs := by
  refine ⟨by decide, ?_⟩
  exact (c8_amended (fun _ => true) [⟨"date=d/part-0.parquet", 7⟩] "out"
    ⟨[], []⟩).1.1 ⟨"date=d/part-0.parquet", 7⟩ (by decide) (by decide)

/-- Model of Python `range(0, stop, step)` for a positive step: the multiples
of `step` below `stop`, in increasing order. -/
def pyRangeStep (stop step : Nat) : List Nat :=
  (List.range ((stop + step - 1) / step)).map (fun j => j * step)

/-- Chunking helper of `stage_and_load_to_bq_gcs.py` (lines 74-76):
`for i in range(0, len(lst), n): yield lst[i:i+n]`. The same slicing pattern
batches files in `stage_and_load_to_bq_local_v2.py` (main, lines 47-50). -/
def chunks (lst : List α) (n : Nat) : List (List α) :=
  (pyRangeStep lst.length n).map (fun i => (lst.drop i).take n)

/-- Hard chunk size of the GCS loader: `CHUNK_SIZE = 9000`, kept below the
10000-URI per-load-job limit. -/
def CHUNK_SIZE : Nat := 9000

/-- Observable events of the warehouse loaders: submission of one load job
over a list of staged references, and the blocking `job.result()` wait. -/
inductive BqEvent where
  | submit (batch : List String)
  | await (batch : List String)
deriving DecidableEq

/-- Boolean test for a submission event. -/
def BqEvent.isSubmit : BqEvent → Bool
  | .submit _ => true
  | .await _ => false

/-- Number of load jobs submitted in a trace. -/
def countSubmits (tr : List BqEvent) : Nat :=
  tr.countP BqEvent.isSubmit

/-- Event trace of `load_parquet_to_bq` in `stage_and_load_to_bq_gcs.py`
(lines 93-105): one load job per chunk, awaited (`job.result()`) before the
next chunk is submitted. The source fixes the chunk size to `CHUNK_SIZE`;
it is a parameter here so the claim can quantify over it. -/
def load_parquet_to_bq (uris : List String) (chunk_size : Nat) : List BqEvent :=
  (chunks uris chunk_size).foldl
    (fun log batch => log ++ [BqEvent.submit batch, BqEvent.await batch]) []

/-- Event trace of `load_parquet_to_bq` in
`stage_and_load_to_bq_local_v2.py` (lines 29-33): within one call, each file
is submitted as its own load job (`client.load_table_from_file` per file)
and awaited before the next file. -/
def load_parquet_to_bq_local_v2 (file_paths : List String) : List BqEvent :=
  file_paths.foldl
    (fun log f => log ++ [BqEvent.submit [f], BqEvent.await [f]]) []

/-- Event trace of `main` in `stage_and_load_to_bq_local_v2.py` (lines
47-50): the file list is cut into batches of `batch_size` and each batch is
handed to its `load_parquet_to_bq`. -/
def local_v2_main (all_files : List String) (batch_size : Nat) : List BqEvent :=
  (chunks all_files batch_size).foldl
    (fun log batch => log ++ load_parquet_to_bq_local_v2 batch) []

lemma foldl_append_eq_flatMap (f : α → List β) :
    ∀ (l : List α) (init : List β),
      l.foldl (fun acc x => acc ++ f x) init = init ++ l.flatMap f
  | [], init => by simp
  | x :: rest, init => by
    rw [List.foldl_cons, foldl_append_eq_flatMap f rest (init ++ f x)]
    simp

lemma ceil_mul_ge (len n : Nat) (hn : 0 < n) : len ≤ (len + n - 1) / n * n := by
  have h1 : n * ((len + n - 1) / n) + (len + n - 1) % n = len + n - 1 :=
    Nat.div_add_mod _ _
  have h2 : (len + n - 1) % n < n := Nat.mod_lt _ hn
  have h3 : (len + n - 1) / n * n = n * ((len + n - 1) / n) := Nat.mul_comm _ _
  generalize n * ((len + n - 1) / n) = A at h1 h3
  generalize (len + n - 1) % n = m at h1 h2
  rw [h3]
  omega

lemma range_slices_flatten (lst : List α) (n : Nat) :
    ∀ k, ((List.range k).map (fun j => (lst.drop (j * n)).take n)).flatten =
      lst.take (k * n)
  | 0 => by simp
  | k + 1 => by
    rw [List.range_succ, List.map_append, List.flatten_append,
      range_slices_flatten lst n k]
    simp only [List.map_cons, List.map_nil, List.flatten_cons,
      List.flatten_nil, List.append_nil]
    rw [Nat.succ_mul, List.take_add]

lemma chunks_eq_map (lst : List α) (n : Nat) :
    chunks lst n =
      (List.range ((lst.length + n - 1) / n)).map
        (fun j => (lst.drop (j * n)).take n) := by
  rw [chunks, pyRangeStep, List.map_map]
  rfl

lemma chunks_flatten (lst : List α) (n : Nat) (hn : 0 < n) :
    (chunks lst n).flatten = lst := by
  rw [chunks_eq_map, range_slices_flatten]
  exact List.take_of_length_le (ceil_mul_ge lst.length n hn)

lemma countSubmits_pairs :
    ∀ (l : List (List String)),
      countSubmits (l.flatMap (fun b => [BqEvent.submit b, BqEvent.await b])) =
        l.length
  | [] => rfl
  | b :: rest => by
    have ih := countSubmits_pairs rest
    simp only [countSubmits, List.flatMap_cons, List.countP_append,
      List.length_cons] at ih ⊢
    rw [ih]
    simp [List.countP_cons, BqEvent.isSubmit]
    omega

lemma countSubmits_single_file :
    ∀ (l : List String),
      countSubmits (l.flatMap (fun f => [BqEvent.submit [f], BqEvent.await [f]])) =
        l.length
  | [] => rfl
  | f :: rest => by
    have ih := countSubmits_single_file rest
    simp only [countSubmits, List.flatMap_cons, List.countP_append,
      List.length_cons] at ih ⊢
    rw [ih]
    simp [List.countP_cons, BqEvent.isSubmit]
    omega

lemma flatMap_flatten (g : α → List β) :
    ∀ (l : List (List α)),
      l.flatten.flatMap g = l.flatMap (fun b => b.flatMap g)
  | [] => rfl
  | b :: rest => by
    rw [List.flatten_cons, List.flatMap_append, flatMap_flatten g rest,
      List.flatMap_cons]

/-- C4 (counterexample). The claim states the Batch Loader submits exactly
`ceil(N/B)` load jobs. The GCS loader does, but the local v2 loader submits
one load job per file inside each batch: with two files and batch size two
it issues two jobs where the claim predicts one. -/
theorem c4_counterexample :
    countSubmits (local_v2_main ["a", "b"] 2) = 2 ∧
    ((["a", "b"] : List String).length + 2 - 1) / 2 = 1 ∧
    countSubmits (load_parquet_to_bq ["a", "b"] 2) = 1 := by
  refine ⟨by decide, by decide, by decide⟩

/-- C4 (amended). For batch size `B > 0`: the chunking yields exactly
`ceil(N/B)` batches of at most `B` references whose concatenation is the
input in order; the GCS loader submits one job per batch, awaiting each
before the next submission (its trace is the in-order interleaving of
submit/await pairs over the batches), hence exactly `ceil(N/B)` jobs; the
local v2 loader cuts the files into the same batches but submits one job
per file, each awaited before the next, hence exactly `N` jobs. -/
theorem c4_amended (uris all_files : List String) (B : Nat) (hB : 0 < B) :
    (chunks uris B).length = (uris.length + B - 1) / B ∧
    (∀ c ∈ chunks uris B, c.length ≤ B) ∧
    (chunks uris B).flatten = uris ∧
    load_parquet_to_bq uris B =
      (chunks uris B).flatMap (fun b => [BqEvent.submit b, BqEvent.await b]) ∧
    countSubmits (load_parquet_to_bq uris B) = (uris.length + B - 1) / B ∧
    local_v2_main all_files B =
      all_files.flatMap (fun f => [BqEvent.submit [f], BqEvent.await [f]]) ∧
    countSubmits (local_v2_main all_files B) = all_files.length := by
  have hlen : (chunks uris B).length = (uris.length + B - 1) / B := by
    rw [chunks_eq_map, List.length_map, List.length_range]
  have htrace : load_parquet_to_bq uris B =
      (chunks uris B).flatMap (fun b => [BqEvent.submit b, BqEvent.await b]) := by
    rw [load_parquet_to_bq, foldl_append_eq_flatMap, List.nil_append]
  have hlocal : local_v2_main all_files B =
      all_files.flatMap (fun f => [BqEvent.submit [f], BqEvent.await [f]]) := by
    rw [local_v2_main]
    have hbody : (fun (log : List BqEvent) (batch : List String) =>
        log ++ load_parquet_to_bq_local_v2 batch) =
        fun log batch => log ++ batch.flatMap
          (fun f => [BqEvent.submit [f], BqEvent.await [f]]) := by
      funext log batch
      rw [load_parquet_to_bq_local_v2, foldl_append_eq_flatMap, List.nil_append]
    rw [hbody, foldl_append_eq_flatMap, List.nil_append,
      ← flatMap_flatten, chunks_flatten _ _ hB]
  refine ⟨hlen, ?_, chunks_flatten _ _ hB, htrace, ?_, hlocal, ?_⟩
  · intro c hc
    rw [chunks_eq_map] at hc
    rcases List.mem_map.mp hc with ⟨j, _, rfl⟩
    rw [List.length_take]
    exact min_le_left _ _
  · rw [htrace, countSubmits_pairs, hlen]
  · rw [hlocal, countSubmits_single_file]

/-- Witness for C4 (amended) at three URIs, one file and batch size two. -/
theorem c4_amended_witness :
    (0 < 2 ∧ (chunks ["u1", "u2", "u3"] 2).length =
      ((["u1", "u2", "u3"] : List String).length + 2 - 1) / 2) ∧
    countSubmits (local_v2_main ["f1"] 2) = 1 :=
  ⟨⟨by decide, (c4_amended ["u1", "u2", "u3"] ["f1"] 2 (by decide)).1⟩,
    (c4_amended ["u1", "u2", "u3"] ["f1"] 2 (by decide)).2.2.2.2.2.2⟩

/-- Partition Completeness Check (`success_marker_exists`,
`load_optimizely_decisions.py` lines 160-168 and v2 lines 205-213): probe
the `_SUCCESS` object under the date prefix via `head_object`; any exception
from the probe is swallowed and reported as `false`. The probe is abstracted
as a function returning `Except`, whose error value stands for every failure
mode (not found, access denied, transient fault). -/
def success_marker_exists (head_object : String → String → Except String Unit)
    (bucket date_pfx : String) : Bool :=
  match head_object bucket (date_pfx ++ "_SUCCESS") with
  | .ok _ => true
  | .error _ => false

/-- C7 (confirmed). `success_marker_exists` returns true exactly when the
metadata probe for the `_SUCCESS` marker succeeds, returns false whenever
the probe fails for any reason, and — being a total Boolean function of the
probe outcome — never propagates an exception to its caller. -/
theorem c7_success_marker (probe : String → String → Except String Unit)
    (bucket date_pfx : String) :
    (success_marker_exists probe bucket date_pfx = true ↔
      probe bucket (date_pfx ++ "_SUCCESS") = .ok ()) ∧
    (∀ e, probe bucket (date_pfx ++ "_SUCCESS") = .error e →
      success_marker_exists probe bucket date_pfx = false) := by
  constructor
  · cases h : probe bucket (date_pfx ++ "_SUCCESS") with
    | ok u =>
      cases u
      simp [success_marker_exists, h]
    | error e =>
      simp [success_marker_exists, h]
  · intro e he
    simp [success_marker_exists, he]

/-- Witness for C7: a probe that always reports access denied yields
`false`, not an error. -/
theorem c7_success_marker_witness :
    success_marker_exists
      (fun _ _ => (Except.error "AccessDenied" : Except String Unit))
      "optimizely-events-data" "v1/account_id=1/type=decisions/date=2024-10-30/" =
      false :=
  (c7_success_marker (fun _ _ => Except.error "AccessDenied")
    "optimizely-events-data" "v1/account_id=1/type=decisions/date=2024-10-30/").2
    "AccessDenied" rfl

/-- Configuration errors raised by the scripts (ValueError / RuntimeError /
sys.exit sites), identified by their raise site rather than message text. -/
inductive CfgError where
  | badPrefixSuffix
  | eventsPrefixMismatch
  | decisionsPrefixMismatch
  | decisionsStaleMismatch
  | notS3Url
  | cannotDetermineAccount
  | missingPat
  | missingStaticCreds
deriving DecidableEq

deriving instance DecidableEq for Except

/-- Calendar date as carried by Python `datetime.date`. -/
structure PyDate where
  year : Nat
  month : Nat
  day : Nat
deriving DecidableEq

/-- Decimal digit character. -/
def digitChar (d : Nat) : Char := Char.ofNat (48 + d)

/-- Two-digit zero-padded rendering, faithful for values below 100. -/
def pad2 (n : Nat) : String := ⟨[digitChar (n / 10 % 10), digitChar (n % 10)]⟩

/-- Four-digit zero-padded rendering, faithful for values below 10000. -/
def pad4 (n : Nat) : String :=
  ⟨[digitChar (n / 1000 % 10), digitChar (n / 100 % 10),
    digitChar (n / 10 % 10), digitChar (n % 10)]⟩

/-- Model of `date.isoformat()`: `YYYY-MM-DD`. -/
def PyDate.isoformat (d : PyDate) : String :=
  pad4 d.year ++ "-" ++ pad2 d.month ++ "-" ++ pad2 d.day

/-- The three recognised type markers (`acceptable` in both validation
sites). -/
def acceptable : List String :=
  ["type=decisions/", "type=events/", "type=decisions-rerun/"]

/-- Prefix validation of `load_optimizely_decisions_v2.py`
(validate_prefix_endswith, lines 261-270). -/
def validate_prefix_endswith (pfx partition_type : String) : Except CfgError Unit :=
  if ¬ acceptable.any (fun s => strEndsWith pfx s) then
    .error .badPrefixSuffix
  else if partition_type = "events" ∧ ¬ strEndsWith pfx "type=events/" then
    .error .eventsPrefixMismatch
  else if partition_type = "decisions" ∧
      ¬ (strEndsWith pfx "type=decisions/" ∨ strEndsWith pfx "type=decisions-rerun/") then
    .error .decisionsPrefixMismatch
  else
    .ok ()

/-- Normalisation `p if p.endswith("/") else p + "/"` shared by both
Partition Locator variants. -/
def normalizeSlash (p : String) : String :=
  if strEndsWith p "/" then p else p ++ "/"

/-- Date-keyed partition prefix as produced by
`load_optimizely_decisions_v2.py`: `validate_prefix_endswith` inside
compute_bucket_and_prefix (line 277/314) followed by
`prefix + f"date={d.isoformat()}/"` in main (line 365). -/
def locate_v2 (pfx partition_type : String) (d : PyDate) : Except CfgError String :=
  match validate_prefix_endswith pfx partition_type with
  | .error e => .error e
  | .ok _ => .ok (pfx ++ "date=" ++ d.isoformat ++ "/")

/-- Partition Locator of `load_optimizely_decisions.py` ( build_date_prefix,
lines 130-144), read as the sequence of checks it contains: the updated
block at lines 133-138 (which accepts the decisions-rerun marker for
`--type decisions`) followed by the stale duplicated block at lines 140-143
(which accepts only `type=decisions/`). The updated block is mis-indented in
the source (one extra leading space), so the file does not even parse; this
embedding reads the checks at function level in their textual order. -/
def build_date_prefix (base_pfx data_type : String) (d : PyDate) :
    Except CfgError String :=
  let p := if strEndsWith base_pfx "/" then base_pfx else base_pfx ++ "/"
  if ¬ acceptable.any (fun s => strEndsWith p s) then
    .error .badPrefixSuffix
  else if data_type = "decisions" ∧
      ¬ (strEndsWith p "type=decisions/" ∨ strEndsWith p "type=decisions-rerun/") then
    .error .decisionsPrefixMismatch
  else if data_type = "events" ∧ ¬ strEndsWith p "type=events/" then
    .error .eventsPrefixMismatch
  else if data_type = "decisions" ∧ ¬ strEndsWith p "type=decisions/" then
    .error .decisionsStaleMismatch
  else if data_type = "events" ∧ ¬ strEndsWith p "type=events/" then
    .error .eventsPrefixMismatch
  else
    .ok (p ++ "date=" ++ d.isoformat ++ "/")

lemma strEndsWith_false_of (s a b : String) (ha : strEndsWith s a = true)
    (hlen : a.data.length ≤ b.data.length) (hnot : ¬ a.data <:+ b.data) :
    strEndsWith s b = false := by
  by_contra hcon
  have hb : strEndsWith s b = true := by
    cases hx : strEndsWith s b
    · exact absurd hx hcon
    · rfl
  have h1 : a.data <:+ s.data := by simpa [strEndsWith] using ha
  have h2 : b.data <:+ s.data := by simpa [strEndsWith] using hb
  have h3 : a.data.reverse <+: s.data.reverse := List.reverse_prefix.mpr h1
  have h4 : b.data.reverse <+: s.data.reverse := List.reverse_prefix.mpr h2
  have h5 : a.data.reverse <+: b.data.reverse :=
    List.prefix_of_prefix_length_le h3 h4 (by simpa using hlen)
  exact hnot (List.reverse_prefix.mp h5)

lemma strEndsWith_trans (s a b : String) (h1 : strEndsWith s a = true)
    (h2 : strEndsWith a b = true) : strEndsWith s b = true := by
  have g1 : a.data <:+ s.data := by simpa [strEndsWith] using h1
  have g2 : b.data <:+ a.data := by simpa [strEndsWith] using h2
  simpa [strEndsWith] using g2.trans g1

/-- C5. The v2 Partition Locator behaves as the claim states: a normalised
base prefix ending in the decisions-rerun marker is accepted for partition
type "decisions" and yields the date-keyed partition prefix; an events
prefix requested as "decisions", or a prefix carrying none of the three
markers, is a configuration error. The v1 build_date_prefix, however,
contradicts both the claim and its own first check: its stale duplicated
check rejects the decisions-rerun prefix (and its updated block is
mis-indented, so the v1 file does not parse at all) — the code, not the
claim, is wrong there. -/
theorem c5_partition_locator :
    (∀ (p : String) (d : PyDate),
      strEndsWith (normalizeSlash p) "type=decisions-rerun/" = true →
        locate_v2 (normalizeSlash p) "decisions" d =
          .ok (normalizeSlash p ++ "date=" ++ d.isoformat ++ "/")) ∧
    (∀ (p : String) (d : PyDate),
      strEndsWith (normalizeSlash p) "type=events/" = true →
        locate_v2 (normalizeSlash p) "decisions" d =
          .error .decisionsPrefixMismatch) ∧
    (∀ (p t : String) (d : PyDate),
      acceptable.any (fun s => strEndsWith (normalizeSlash p) s) = false →
        locate_v2 (normalizeSlash p) t d = .error .badPrefixSuffix) ∧
    build_date_prefix "v1/account_id=1/type=decisions-rerun/" "decisions"
      ⟨2024, 10, 30⟩ = .error .decisionsStaleMismatch := by
  refine ⟨?_, ?_, ?_, by decide⟩
  · intro p d h
    have hany : acceptable.any (fun s => strEndsWith (normalizeSlash p) s) = true :=
      List.any_eq_true.mpr ⟨"type=decisions-rerun/", by simp [acceptable], h⟩
    rw [locate_v2, validate_prefix_endswith]
    rw [if_neg (by simp [hany])]
    rw [if_neg (fun hc => absurd hc.1 (by decide))]
    rw [if_neg (fun hc => hc.2 (Or.inr h))]
  · intro p d h
    have hany : acceptable.any (fun s => strEndsWith (normalizeSlash p) s) = true :=
      List.any_eq_true.mpr ⟨"type=events/", by simp [acceptable], h⟩
    have hd : strEndsWith (normalizeSlash p) "type=decisions/" = false :=
      strEndsWith_false_of _ "type=events/" "type=decisions/" h (by decide) (by decide)
    have hr : strEndsWith (normalizeSlash p) "type=decisions-rerun/" = false :=
      strEndsWith_false_of _ "type=events/" "type=decisions-rerun/" h (by decide)
        (by decide)
    rw [locate_v2, validate_prefix_endswith]
    rw [if_neg (by simp [hany])]
    rw [if_neg (fun hc => absurd hc.1 (by decide))]
    rw [if_pos ⟨rfl, by simp [hd, hr]⟩]
  · intro p t d h
    rw [locate_v2, validate_prefix_endswith, if_pos (by simp [h])]

/-- Witness for C5 at the decisions-rerun prefix of the claim scenario. -/
theorem c5_partition_locator_witness :
    strEndsWith (normalizeSlash "v1/account_id=1/type=decisions-rerun/")
      "type=decisions-rerun/" = true ∧
    locate_v2 (normalizeSlash "v1/account_id=1/type=decisions-rerun/")
      "decisions" ⟨2024, 10, 30⟩ =
      .ok (normalizeSlash "v1/account_id=1/type=decisions-rerun/" ++
        "date=" ++ (⟨2024, 10, 30⟩ : PyDate).isoformat ++ "/") :=
  ⟨by decide, c5_partition_locator.1 "v1/account_id=1/type=decisions-rerun/"
    ⟨2024, 10, 30⟩ (by decide)⟩

/-- Truthiness of an optional string in Python: present and nonempty. -/
def truthy : Option String → Bool
  | some s => decide (s ≠ "")
  | none => false

/-- Model of the Python idiom `a or b` for an optional/possibly-empty string
with a fallback. -/
def pyOrStr (a : Option String) (b : String) : String :=
  if truthy a then a.getD "" else b

/-- Boolean decimal-digit test (`\d` over the keys at hand). -/
def isAsciiDigit (c : Char) : Bool := decide ('0' ≤ c ∧ c ≤ '9')

/-- Model of `parse_s3_path` (`load_optimizely_decisions_v2.py` lines
156-166): split `s3://bucket/key` into bucket and key prefix, normalising a
nonempty key to end with a slash. `urlparse` query/fragment handling is not
modelled: the s3Path hints contain neither. -/
def parse_s3_path (s3_path : String) : Except CfgError (String × String) :=
  if ¬ strStartsWith s3_path "s3://" then .error .notS3Url
  else
    let rest := s3_path.data.drop 5
    let bucket : String := ⟨rest.takeWhile (fun c => c ≠ '/')⟩
    let key : String := ⟨(rest.dropWhile (fun c => c ≠ '/')).dropWhile (fun c => c = '/')⟩
    if key ≠ "" ∧ ¬ strEndsWith key "/" then .ok (bucket, key ++ "/")
    else .ok (bucket, key)

/-- Model of `re.search(r"v1/account_id=\d+/?$", base_key)` as a Boolean:
the key ends with the literal `v1/account_id=` followed by at least one
digit and an optional final slash. The digit run before the optional slash
is necessarily maximal, so no backtracking case is lost. -/
def ends_with_account_id (s : String) : Bool :=
  let r0 := s.data.reverse
  let r1 := match r0 with
    | '/' :: rest => rest
    | other => other
  let digs := r1.takeWhile isAsciiDigit
  !digs.isEmpty && ("v1/account_id=".data.reverse).isPrefixOf (r1.dropWhile isAsciiDigit)

/-- Match of `v1/account_id=\d+/` anchored at the head of `cs` (the char
before a chosen digit run must be the literal `=`, so only the maximal run
can match). -/
def account_base_match_at (cs : List Char) : Bool :=
  if "v1/account_id=".data.isPrefixOf cs then
    let after := cs.drop 14
    let digs := after.takeWhile isAsciiDigit
    if digs.isEmpty then false
    else
      match after.drop digs.length with
      | '/' :: _ => true
      | _ => false
  else false

/-- Model of `re.search(r"v1/account_id=\d+/", base_key)`: the pattern
occurs somewhere in the key. -/
def contains_account_id (s : String) : Bool :=
  s.data.tails.any account_base_match_at

/-- Model of `re.match(r"(v1/account_id=\d+/)", base_key)` returning the
matched group: the pattern anchored at the start of the key. -/
def match_account_base (s : String) : Option String :=
  if "v1/account_id=".data.isPrefixOf s.data then
    let after := s.data.drop 14
    let digs := after.takeWhile isAsciiDigit
    if digs.isEmpty then none
    else
      match after.drop digs.length with
      | '/' :: _ => some ⟨"v1/account_id=".data ++ digs ++ ['/']⟩
      | _ => none
  else none

/-- Relevant command-line arguments of `load_optimizely_decisions_v2.py`:
auth mode, availability of the corresponding credentials, and the location
controls. `pfx` models `args.prefix`. -/
structure ArgsV2 where
  auth_optimizely : Bool
  pat_available : Bool
  static_creds_available : Bool
  bucket : Option String
  pfx : Option String
  account_id : Option String
  partition_type : String
deriving DecidableEq

/-- Default bucket `optimizely-events-data`. -/
def DEFAULT_BUCKET : String := "optimizely-events-data"

/-- Validate-then-return step shared by both exits of
compute_bucket_and_prefix (lines 276-279 and 311-315): validate the
prefix for the partition type and return the `(bucket, prefix)` pair,
propagating a validation error. -/
def validate_and_return (bucket pfx partition_type : String) :
    Except CfgError (String × String) :=
  match validate_prefix_endswith pfx partition_type with
  | .error e => .error e
  | .ok _ => .ok (bucket, pfx)

/-- Account base derivation of compute_bucket_and_prefix (lines 292-309):
take the hint key when it already ends in `v1/account_id=<digits>/`,
otherwise trim it to that shape when the pattern occurs, otherwise fall
back to `--account-id`; empty results count as absent, mirroring Python
truthiness. -/
def derive_account_base (base_key : Option String) (account_id : Option String) :
    Option String :=
  let ab1 : Option String :=
    if truthy base_key ∧ ends_with_account_id (base_key.getD "") then base_key
    else if truthy base_key ∧ contains_account_id (base_key.getD "") then
      match_account_base (base_key.getD "")
    else none
  if truthy ab1 then ab1
  else if truthy account_id then
    some ("v1/account_id=" ++ account_id.getD "" ++ "/")
  else none

/-- The `(bucket, key)` pair recovered from the s3Path hint, when the hint
is present and parses (lines 282-288: parse failures are swallowed). -/
def hint_bucket_key (s3_path_hint : Option String) : Option (String × String) :=
  match s3_path_hint with
  | some h =>
    match parse_s3_path h with
    | .ok bk => some bk
    | .error _ => none
  | none => none

/-- Model of compute_bucket_and_prefix
(`load_optimizely_decisions_v2.py` lines 273-315): prefer an explicit
`--prefix` (normalised and validated); otherwise derive the account base
from the s3Path hint or `--account-id`, append the type marker, validate,
or fail. -/
def compute_bucket_and_prefix (args : ArgsV2) (s3_path_hint : Option String) :
    Except CfgError (String × String) :=
  if truthy args.pfx then
    validate_and_return (pyOrStr args.bucket DEFAULT_BUCKET)
      (normalizeSlash (args.pfx.getD "")) args.partition_type
  else if truthy (derive_account_base
      ((hint_bucket_key s3_path_hint).map Prod.snd) args.account_id) then
    validate_and_return
      (pyOrStr args.bucket
        (pyOrStr ((hint_bucket_key s3_path_hint).map Prod.fst) DEFAULT_BUCKET))
      ((derive_account_base ((hint_bucket_key s3_path_hint).map Prod.snd)
          args.account_id).getD "" ++ "type=" ++ args.partition_type ++ "/")
      args.partition_type
  else .error .cannotDetermineAccount

lemma validate_and_return_ok (bucket pfx t b p : String)
    (h : validate_and_return bucket pfx t = .ok (b, p)) :
    p = pfx ∧ validate_prefix_endswith p t = .ok () := by
  rw [validate_and_return] at h
  cases hv : validate_prefix_endswith pfx t with
  | error e =>
    rw [hv] at h
    exact absurd h (by simp)
  | ok u =>
    cases u
    rw [hv] at h
    rw [Except.ok.injEq, Prod.mk.injEq] at h
    obtain ⟨-, rfl⟩ := h
    exact ⟨rfl, hv⟩

lemma validate_ok_any (pfx t : String)
    (h : validate_prefix_endswith pfx t = .ok ()) :
    acceptable.any (fun s => strEndsWith pfx s) = true := by
  by_contra hc
  have hfalse : ¬ acceptable.any (fun s => strEndsWith pfx s) = true := hc
  rw [validate_prefix_endswith, if_pos hfalse] at h
  exact absurd h (by simp)

lemma validate_ok_slash (pfx t : String)
    (h : validate_prefix_endswith pfx t = .ok ()) :
    strEndsWith pfx "/" = true := by
  rcases List.any_eq_true.mp (validate_ok_any pfx t h) with ⟨s, hs, hsfx⟩
  have hs3 : s = "type=decisions/" ∨ s = "type=events/" ∨
      s = "type=decisions-rerun/" := by simpa [acceptable] using hs
  rcases hs3 with rfl | rfl | rfl
  · exact strEndsWith_trans _ _ _ hsfx (by decide)
  · exact strEndsWith_trans _ _ _ hsfx (by decide)
  · exact strEndsWith_trans _ _ _ hsfx (by decide)

/-- C9 (confirmed). Every `(bucket, prefix)` pair that
compute_bucket_and_prefix returns — from an explicit `--prefix`, from the
s3Path hint, or from `--account-id` plus the partition type — ends with a
slash and passes `validate_prefix_endswith` for the requested partition
type; inputs from which no conforming prefix can be built produce an error
instead of a result. -/
theorem c9_compute_invariant (args : ArgsV2) (hint : Option String)
    (b p : String)
    (h : compute_bucket_and_prefix args hint = .ok (b, p)) :
    strEndsWith p "/" = true ∧
    validate_prefix_endswith p args.partition_type = .ok () := by
  rw [ compute_bucket_and_prefix] at h
  by_cases h1 : truthy args.pfx = true
  · rw [if_pos h1] at h
    obtain ⟨-, hv⟩ := validate_and_return_ok _ _ _ _ _ h
    exact ⟨validate_ok_slash _ _ hv, hv⟩
  · rw [if_neg h1] at h
    by_cases h2 : truthy (derive_account_base
        ((hint_bucket_key hint).map Prod.snd) args.account_id) = true
    · rw [if_pos h2] at h
      obtain ⟨-, hv⟩ := validate_and_return_ok _ _ _ _ _ h
      exact ⟨validate_ok_slash _ _ hv, hv⟩
    · rw [if_neg h2] at h
      exact absurd h (by simp)
/-- Witness for C9: an explicit conforming prefix is returned unchanged
with the default bucket and satisfies the invariant. -/
theorem c9_compute_invariant_witness :
    compute_bucket_and_prefix
      ⟨true, true, true, none, some "v1/account_id=1/type=decisions/", none,
        "decisions"⟩ none =
      .ok ("optimizely-events-data", "v1/account_id=1/type=decisions/") ∧
    strEndsWith "v1/account_id=1/type=decisions/" "/" = true ∧
    validate_prefix_endswith "v1/account_id=1/type=decisions/" "decisions" =
      .ok () :=
  ⟨by decide,
    c9_compute_invariant
      ⟨true, true, true, none, some "v1/account_id=1/type=decisions/", none,
        "decisions"⟩ none "optimizely-events-data"
      "v1/account_id=1/type=decisions/" (by decide)⟩

/-- Network operations issued by `load_optimizely_decisions_v2.py`. -/
inductive NetOp where
  | credentialExchange
  | headObject (bucket key : String)
  | listObjects (bucket pfx : String)
  | getObject (bucket key : String)
deriving DecidableEq

/-- Observable run events of v2 `main`: network operations and fatal
configuration exits (`sys.exit` with an error message). -/
inductive RunEvent where
  | net (op : NetOp)
  | configExit (e : CfgError)
deriving DecidableEq

/-- Boolean test for a network event. -/
def RunEvent.isNet : RunEvent → Bool
  | .net _ => true
  | .configExit _ => false

/-- Boolean test for a configuration exit. -/
def RunEvent.isConfigExit : RunEvent → Bool
  | .configExit _ => true
  | .net _ => false

/-- Event trace of `main` in `load_optimizely_decisions_v2.py` (lines
331-352) from client construction through compute_bucket_and_prefix:
with `--auth optimizely` a missing PAT exits first, otherwise the S3 client
is built, performing the initial credential exchange (line 337,
`s3_client_via_optimizely` calls `fetch_optimizely_temp_creds` before
returning); with `--auth aws` missing static keys exit and no exchange
happens. Only then is compute_bucket_and_prefix run (line 350), whose
failure exits. `rest` abstracts the remainder of the run (the sync loop)
given the computed bucket and prefix. -/
def main_v2_trace (rest : String → String → List RunEvent) (args : ArgsV2)
    (s3_path_hint : Option String) : List RunEvent :=
  if args.auth_optimizely ∧ ¬ args.pat_available then
    [RunEvent.configExit .missingPat]
  else if ¬ args.auth_optimizely ∧ ¬ args.static_creds_available then
    [RunEvent.configExit .missingStaticCreds]
  else
    (if args.auth_optimizely then [RunEvent.net .credentialExchange] else []) ++
    match compute_bucket_and_prefix args
        (if args.auth_optimizely then s3_path_hint else none) with
    | .error e => [RunEvent.configExit e]
    | .ok bp => rest bp.1 bp.2

/-- Holds when no network event precedes the first configuration exit of a
trace — the property C6 asserts of prefix-type mismatches. -/
def noNetworkBeforeConfigExit (tr : List RunEvent) : Bool :=
  (tr.takeWhile (fun ev => ! ev.isConfigExit)).all (fun ev => ! ev.isNet)

/-- C6 (counterexample). Running v2 with `--auth optimizely` (the default),
a PAT present, prefix `v1/account_id=1/type=decisions/` and `--type events`:
the credential-exchange HTTP call happens while building the S3 client,
before compute_bucket_and_prefix raises the prefix-type mismatch — so the
configuration error is not reported before all network activity. -/
theorem c6_counterexample :
    main_v2_trace (fun _ _ => [])
      ⟨true, true, true, none, some "v1/account_id=1/type=decisions/", none,
        "events"⟩ none =
      [RunEvent.net .credentialExchange,
        RunEvent.configExit .eventsPrefixMismatch] ∧
    noNetworkBeforeConfigExit
      (main_v2_trace (fun _ _ => [])
        ⟨true, true, true, none, some "v1/account_id=1/type=decisions/", none,
          "events"⟩ none) = false := by
  refine ⟨by decide, by decide⟩

/-- C6 (amended). For every run of v2 `main` with `--auth optimizely`, a PAT
available and an explicit prefix whose validation fails, the configuration
error is raised before any object-store request but after the
credential-exchange HTTP call: the trace is exactly the credential exchange
followed by the configuration exit. (With `--auth aws` no network call
precedes the error; the v1 script validates inside its date loop, likewise
after client construction.) -/
theorem c6_amended (rest : String → String → List RunEvent) (args : ArgsV2)
    (hint : Option String) (e : CfgError)
    (hauth : args.auth_optimizely = true)
    (hpat : args.pat_available = true)
    (hpfx : truthy args.pfx = true)
    (hval : validate_prefix_endswith (normalizeSlash (args.pfx.getD ""))
      args.partition_type = .error e) :
    main_v2_trace rest args hint =
      [RunEvent.net .credentialExchange, RunEvent.configExit e] := by
  rw [main_v2_trace]
  rw [if_neg (by simp [hauth, hpat])]
  rw [if_neg (by simp [hauth])]
  rw [if_pos hauth]
  rw [ compute_bucket_and_prefix, if_pos hpfx, validate_and_return, hval]
  rfl

/-- Witness for C6 (amended) at the concrete mismatching configuration. -/
theorem c6_amended_witness :
    truthy (some "v1/account_id=7/type=events/") = true ∧
    main_v2_trace (fun _ _ => [])
      ⟨true, true, true, none, some "v1/account_id=7/type=events/", none,
        "decisions"⟩ none =
      [RunEvent.net .credentialExchange,
        RunEvent.configExit .decisionsPrefixMismatch] :=
  ⟨by decide,
    c6_amended (fun _ _ => [])
      ⟨true, true, true, none, some "v1/account_id=7/type=events/", none,
        "decisions"⟩ none .decisionsPrefixMismatch rfl rfl (by decide)
      (by decide)⟩

/-- Leap-year rule of the proleptic Gregorian calendar used by
`datetime.date`. -/
def isLeap (y : Nat) : Bool := decide (y % 4 = 0 ∧ (y % 100 ≠ 0 ∨ y % 400 = 0))

/-- Days in a month of year `y`. -/
def daysInMonth (y m : Nat) : Nat :=
  if m = 2 then (if isLeap y then 29 else 28)
  else if m = 4 ∨ m = 6 ∨ m = 9 ∨ m = 11 then 30
  else 31

/-- Days of year `y` before month `m`. -/
def daysBeforeMonth (y m : Nat) : Nat :=
  ((List.range (m - 1)).map (fun i => daysInMonth y (i + 1))).sum

/-- Days before January 1 of year `y` (proleptic Gregorian). -/
def daysBeforeYear (y : Nat) : Nat :=
  (y - 1) * 365 + (y - 1) / 4 - (y - 1) / 100 + (y - 1) / 400

/-- Model of `date.toordinal()`. Python dates are isomorphic to their
ordinals and `d += timedelta(days=1)` is ordinal successor, so the per-day
iteration is modelled on ordinals. -/
def PyDate.toOrdinal (d : PyDate) : Nat :=
  daysBeforeYear d.year + daysBeforeMonth d.year d.month + d.day

/-- Model of Python date comparison `a <= b`: lexicographic on
`(year, month, day)`. -/
def dateLE (a b : PyDate) : Bool :=
  decide (a.year < b.year ∨ (a.year = b.year ∧
    (a.month < b.month ∨ (a.month = b.month ∧ a.day ≤ b.day))))

/-- Arguments for which `date(y, m, d)` does not raise `ValueError` for the
years the key regex can produce (2000-2099, all within datetime's range). -/
def isValidDate (y m d : Nat) : Bool :=
  decide (1 ≤ m ∧ m ≤ 12 ∧ 1 ≤ d) && decide (d ≤ daysInMonth y m)

/-- Model of `daterange(start, end)` (extract lines 58-62, v1 lines
124-128, v2 lines 183-187) on date ordinals: `while d <= end: yield d;
d += timedelta(days=1)`. -/
def daterange (start stop : Nat) : List Nat :=
  (List.range (stop + 1 - start)).map (fun i => start + i)

/-- Value of a digit character. -/
def digitVal (c : Char) : Nat := c.toNat - 48

/-- Optional separator of `DATE_IN_KEY_REGEX` (the character class of dash,
slash and underscore, matched greedily; these characters cannot begin a
month or day group, so greediness never loses a match). -/
def consumeSep : List Char → List Char
  | c :: rest => if c = '-' ∨ c = '/' ∨ c = '_' then rest else c :: rest
  | [] => []

/-- Match of `DATE_IN_KEY_REGEX` at the head of `cs` — a year group `20`
plus two digits not preceded by a digit, an optional separator, a month
group 00-19, an optional separator, and a day group 00-39 not followed by a
digit — where `prev` is the character before the position (lookbehind).
Returns the extracted `(year, month, day)` digits. -/
def matchDateHead (prev : Option Char) : List Char → Option (Nat × Nat × Nat)
  | '2' :: '0' :: a :: b :: rest =>
    if (match prev with | some c => isAsciiDigit c | none => false) then none
    else if isAsciiDigit a ∧ isAsciiDigit b then
      match consumeSep rest with
      | m1 :: m2 :: rest2 =>
        if ('0' ≤ m1 ∧ m1 ≤ '1') ∧ isAsciiDigit m2 then
          match consumeSep rest2 with
          | d1 :: d2 :: rest4 =>
            if ('0' ≤ d1 ∧ d1 ≤ '3') ∧ isAsciiDigit d2 then
              if (match rest4 with | c :: _ => isAsciiDigit c | [] => false) then
                none
              else
                some (2000 + 10 * digitVal a + digitVal b,
                  10 * digitVal m1 + digitVal m2,
                  10 * digitVal d1 + digitVal d2)
            else none
          | _ => none
        else none
      | _ => none
    else none
  | _ => none

/-- All dates extracted by `DATE_IN_KEY_REGEX.finditer` over a key,
scanning every position. For this pattern no match can begin strictly
inside another (every interior position is either preceded by a digit,
which the lookbehind rejects, or starts with a character other than the
literal `2`), so the position-by-position scan finds exactly the
non-overlapping matches `finditer` reports. -/
def findDates : Option Char → List Char → List (Nat × Nat × Nat)
  | _, [] => []
  | prev, c :: rest =>
    (match matchDateHead prev (c :: rest) with
     | some t => [t]
     | none => []) ++ findDates (some c) rest

/-- Heuristic date filter `key_has_date_in_range`
(`extract_optimizely_s3.py` lines 73-86): accept the key if any extracted
match forms a valid date inside `[start, stop]`; invalid dates
(`ValueError`) are passed over. -/
def key_has_date_in_range (key : String) (startD stopD : PyDate) : Bool :=
  (findDates none key.data).any (fun t =>
    isValidDate t.1 t.2.1 t.2.2 &&
    dateLE startD ⟨t.1, t.2.1, t.2.2⟩ && dateLE ⟨t.1, t.2.1, t.2.2⟩ stopD)

/-- Per-day collection loop of v2 `main` (lines 363-375), over abstract
per-date listings: skip a date without a completeness marker when markers
are required, keep only `.parquet` keys, skip empty days, extend the
running collection. Dates are ordinals as in `daterange`. -/
def collect_v2 (listing : Nat → List RemoteObject) (marker : Nat → Bool)
    (require_success : Bool) (startO stopO : Nat) : List RemoteObject :=
  (daterange startO stopO).foldl
    (fun acc d =>
      if ¬ marker d ∧ require_success then acc
      else
        if ((listing d).filter (fun o => strEndsWith o.key ".parquet")).isEmpty then
          acc
        else acc ++ (listing d).filter (fun o => strEndsWith o.key ".parquet"))
    []

lemma collect_go_mem (listing : Nat → List RemoteObject) (marker : Nat → Bool)
    (require_success : Bool) :
    ∀ (ds : List Nat) (acc : List RemoteObject) (o : RemoteObject),
      o ∈ ds.foldl
        (fun acc d =>
          if ¬ marker d ∧ require_success then acc
          else
            if ((listing d).filter (fun o => strEndsWith o.key ".parquet")).isEmpty then
              acc
            else acc ++ (listing d).filter (fun o => strEndsWith o.key ".parquet"))
        acc →
      o ∈ acc ∨ ∃ d ∈ ds, o ∈ listing d
  | [], acc, o, h => Or.inl h
  | d :: rest, acc, o, h => by
    rw [List.foldl_cons] at h
    rcases collect_go_mem listing marker require_success rest _ o h with h1 | ⟨d2, hd2, ho2⟩
    · by_cases hm : ¬ marker d = true ∧ require_success = true
      · rw [if_pos hm] at h1
        exact Or.inl h1
      · rw [if_neg hm] at h1
        by_cases he :
            ((listing d).filter (fun o => strEndsWith o.key ".parquet")).isEmpty = true
        · rw [if_pos he] at h1
          exact Or.inl h1
        · rw [if_neg he] at h1
          rcases List.mem_append.mp h1 with h2 | h2
          · exact Or.inl h2
          · exact Or.inr ⟨d, List.mem_cons_self _ _, List.mem_of_mem_filter h2⟩
    · exact Or.inr ⟨d2, List.mem_cons_of_mem _ hd2, ho2⟩

/-- C3 (confirmed). For `start <= end`: the per-day iteration visits
exactly the ordinals in `[start, end]`, in strictly ascending order; the
Sync Engine collection only contains objects drawn from listings of visited
dates — so no partition outside the range contributes; and the heuristic
fallback accepts a key only when some date extracted from it is a valid
date lying within `[start, end]`. -/
theorem c3_sync_range (s e : PyDate) (hse : dateLE s e = true) :
    (∀ n, n ∈ daterange s.toOrdinal e.toOrdinal ↔
      s.toOrdinal ≤ n ∧ n ≤ e.toOrdinal) ∧
    List.Chain' (· < ·) (daterange s.toOrdinal e.toOrdinal) ∧
    (∀ (listing : Nat → List RemoteObject) (marker : Nat → Bool)
        (require_success : Bool) (o : RemoteObject),
      o ∈ collect_v2 listing marker require_success s.toOrdinal e.toOrdinal →
      ∃ d, d ∈ daterange s.toOrdinal e.toOrdinal ∧ o ∈ listing d) ∧
    (∀ key : String, key_has_date_in_range key s e = true →
      ∃ y m d, (y, m, d) ∈ findDates none key.data ∧
        isValidDate y m d = true ∧
        dateLE s ⟨y, m, d⟩ = true ∧ dateLE ⟨y, m, d⟩ e = true) := by
  have hmem : ∀ n, n ∈ daterange s.toOrdinal e.toOrdinal ↔
      s.toOrdinal ≤ n ∧ n ≤ e.toOrdinal := by
    intro n
    rw [daterange]
    constructor
    · intro h
      rcases List.mem_map.mp h with ⟨i, hi, rfl⟩
      rw [List.mem_range] at hi
      omega
    · intro ⟨h1, h2⟩
      exact List.mem_map.mpr ⟨n - s.toOrdinal,
        List.mem_range.mpr (by omega), by omega⟩
  refine ⟨hmem, ?_, ?_, ?_⟩
  · rw [daterange]
    refine List.Pairwise.chain' (List.Pairwise.map _ ?_ (List.pairwise_lt_range _))
    intro a b hab
    omega
  · intro listing marker require_success o ho
    rw [collect_v2] at ho
    rcases collect_go_mem listing marker require_success _ _ o ho with h1 | ⟨d, hd, hod⟩
    · exact absurd h1 (List.not_mem_nil o)
    · exact ⟨d, hd, hod⟩
  · intro key h
    rw [key_has_date_in_range] at h
    rcases List.any_eq_true.mp h with ⟨t, ht, hp⟩
    rw [Bool.and_eq_true, Bool.and_eq_true] at hp
    exact ⟨t.1, t.2.1, t.2.2, ht, hp.1.1, hp.1.2, hp.2⟩

/-- Witness for C3 at the claim scenario range 2024-10-30 to 2024-10-31. -/
theorem c3_sync_range_witness :
    dateLE ⟨2024, 10, 30⟩ ⟨2024, 10, 31⟩ = true ∧
    ((∀ n, n ∈ daterange (PyDate.toOrdinal ⟨2024, 10, 30⟩)
        (PyDate.toOrdinal ⟨2024, 10, 31⟩) ↔
      PyDate.toOrdinal ⟨2024, 10, 30⟩ ≤ n ∧
        n ≤ PyDate.toOrdinal ⟨2024, 10, 31⟩) ∧
    List.Chain' (· < ·) (daterange (PyDate.toOrdinal ⟨2024, 10, 30⟩)
      (PyDate.toOrdinal ⟨2024, 10, 31⟩)) ∧
    (∀ (listing : Nat → List RemoteObject) (marker : Nat → Bool)
        (require_success : Bool) (o : RemoteObject),
      o ∈ collect_v2 listing marker require_success
          (PyDate.toOrdinal ⟨2024, 10, 30⟩) (PyDate.toOrdinal ⟨2024, 10, 31⟩) →
      ∃ d, d ∈ daterange (PyDate.toOrdinal ⟨2024, 10, 30⟩)
        (PyDate.toOrdinal ⟨2024, 10, 31⟩) ∧ o ∈ listing d) ∧
    (∀ key : String,
      key_has_date_in_range key ⟨2024, 10, 30⟩ ⟨2024, 10, 31⟩ = true →
      ∃ y m d, (y, m, d) ∈ findDates none key.data ∧
        isValidDate y m d = true ∧
        dateLE ⟨2024, 10, 30⟩ ⟨y, m, d⟩ = true ∧
        dateLE ⟨y, m, d⟩ ⟨2024, 10, 31⟩ = true)) :=
  ⟨by decide, c3_sync_range ⟨2024, 10, 30⟩ ⟨2024, 10, 31⟩ (by decide)⟩
